import Mathlib

/-!
# Verification of the claude-squad instance supervisor

Shallow embedding of the Go sources of the claude-squad repository
(session storage, instance lifecycle helpers, name sanitizers, project
identifiers, global state and legacy migration), together with proofs
and refutations of the specification claims about them.

Each definition carries a comment naming the Go function it embeds.
-/

namespace ClaudeSquad

/-! ## Go character and string helpers

Go strings are UTF-8 byte sequences; we model them as Lean `String`
(lists of Unicode code points) and encode to bytes explicitly where the
source hashes raw bytes. -/

/-- Go `unicode.ToLower` restricted to the ASCII range, which is the
range relevant to all inputs considered here: characters outside ASCII
are mapped to non-ASCII characters by Go's table in all but a handful of
exotic cases, and every non-ASCII character is subsequently removed by
the `[^a-z0-9\-_]+` filter of `sanitizeIdentifier`, so the two models
agree on that function's output for the inputs of the claims. -/
def goToLower (c : Char) : Char :=
  if 'A' ≤ c ∧ c ≤ 'Z' then Char.ofNat (c.toNat + 32) else c

/-- Character class of Go's regexp `\s`, namely `[\t\n\f\r ]`
(used by `whiteSpaceRegex` in session/tmux/tmux.go). -/
def isGoSpace (c : Char) : Bool :=
  c = ' ' || c = '\t' || c = '\n' || c = Char.ofNat 12 || c = '\r'

/-! ## tmux session-name sanitizer (session/tmux/tmux.go)

```go
const TmuxPrefix = "claudesquad_"
var whiteSpaceRegex = regexp.MustCompile(`\s+`)
func toClaudeSquadTmuxName(str string) string {
    str = whiteSpaceRegex.ReplaceAllString(str, "")
    str = strings.ReplaceAll(str, ".", "_")
    return fmt.Sprintf("%s%s", TmuxPrefix, str)
}
```

Replacing every run matched by `\s+` with the empty string is the same
as deleting every `\s` character; `strings.ReplaceAll(str, ".", "_")`
maps each character. -/

/-- The constant `TmuxPrefix` from session/tmux/tmux.go. -/
def tmuxNameLead : List Char := "claudesquad_".data

/-- The core of `toClaudeSquadTmuxName`: delete Go-whitespace, then map
`'.'` to `'_'` (the part before the fixed lead string is attached). -/
def tmuxNameCore (l : List Char) : List Char :=
  (l.filter (fun c => !isGoSpace c)).map (fun c => if c = '.' then '_' else c)

/-- `toClaudeSquadTmuxName` from session/tmux/tmux.go. -/
def toClaudeSquadTmuxName (s : String) : String :=
  ⟨tmuxNameLead ++ tmuxNameCore s.data⟩

/-! ## Git branch identifier sanitizer (session/llm/translator.go)

```go
func sanitizeIdentifier(s string) string {
    s = strings.ToLower(s)
    s = strings.ReplaceAll(s, " ", "-")
    re := regexp.MustCompile(`[^a-z0-9\-_]+`)
    s = re.ReplaceAllString(s, "")
    reDash := regexp.MustCompile(`-+`)
    s = reDash.ReplaceAllString(s, "-")
    s = strings.Trim(s, "-")
    return s
}
```
-/

/-- The character class `[a-z0-9\-_]` of translator.go's safe-set
regexp (its complement is deleted). -/
def isSafeIdentChar (c : Char) : Bool :=
  ('a' ≤ c && c ≤ 'z') || ('0' ≤ c && c ≤ '9') || c = '-' || c = '_'

/-- Replacing every run matched by `-+` with a single `"-"`
(`reDash.ReplaceAllString(s, "-")`): a left-to-right pass that keeps
the first dash of each run and drops the rest.  The flag records
whether the previously emitted character was a dash of a run still
being consumed. -/
def collapseDashAux : Bool → List Char → List Char
  | _, [] => []
  | prevDash, c :: t =>
    if c = '-' then
      if prevDash then collapseDashAux true t
      else '-' :: collapseDashAux true t
    else c :: collapseDashAux false t

/-- `reDash.ReplaceAllString(s, "-")` from sanitizeIdentifier. -/
def collapseDash (l : List Char) : List Char := collapseDashAux false l

/-- Removal of trailing `'-'` characters, the right half of Go's
`strings.Trim(s, "-")`. -/
def dropEndDash : List Char → List Char
  | [] => []
  | a :: t =>
    let r := dropEndDash t
    if r = [] ∧ a = '-' then [] else a :: r

/-- Go `strings.Trim(s, "-")`: remove leading and trailing dashes. -/
def trimDash (l : List Char) : List Char :=
  dropEndDash (l.dropWhile (fun c => c = '-'))

/-- `sanitizeIdentifier` from session/llm/translator.go, on character
lists. -/
def sanitizeIdentCore (l : List Char) : List Char :=
  trimDash (collapseDash
    (((l.map goToLower).map (fun c => if c = ' ' then '-' else c)).filter
      isSafeIdentChar))

/-- `sanitizeIdentifier` from session/llm/translator.go. -/
def sanitizeIdentifier (s : String) : String :=
  ⟨sanitizeIdentCore s.data⟩

/-! ## SHA-256 (Go crypto/sha256, FIPS 180-4)

Both copies of `GenerateProjectID` compute
`hex.EncodeToString(sha256.Sum256([]byte(repoPath)))[:16]`.  We embed
SHA-256 itself over byte lists (bytes are `Nat < 256`, words are
`Nat < 2^32`, arithmetic is explicit `% 2^32`). -/

/-- Addition of 32-bit words. -/
def add32 (a b : Nat) : Nat := (a + b) % 4294967296

/-- Right rotation of a 32-bit word by `n` bits. -/
def rotr32 (n x : Nat) : Nat :=
  ((x >>> n) ||| (x <<< (32 - n))) % 4294967296

/-- Bitwise complement of a 32-bit word (operand already `< 2^32`). -/
def not32 (x : Nat) : Nat := 4294967295 - x % 4294967296

/-- SHA-256 `Ch(x,y,z)`. -/
def shaCh (x y z : Nat) : Nat := (x &&& y) ^^^ (not32 x &&& z)

/-- SHA-256 `Maj(x,y,z)`. -/
def shaMaj (x y z : Nat) : Nat := (x &&& y) ^^^ (x &&& z) ^^^ (y &&& z)

/-- SHA-256 `Σ₀`. -/
def bigSigma0 (x : Nat) : Nat := rotr32 2 x ^^^ rotr32 13 x ^^^ rotr32 22 x

/-- SHA-256 `Σ₁`. -/
def bigSigma1 (x : Nat) : Nat := rotr32 6 x ^^^ rotr32 11 x ^^^ rotr32 25 x

/-- SHA-256 `σ₀`. -/
def smallSigma0 (x : Nat) : Nat := rotr32 7 x ^^^ rotr32 18 x ^^^ (x >>> 3)

/-- SHA-256 `σ₁`. -/
def smallSigma1 (x : Nat) : Nat := rotr32 17 x ^^^ rotr32 19 x ^^^ (x >>> 10)

/-- The 64 SHA-256 round constants (FIPS 180-4 §4.2.2, here in
decimal). -/
def shaK : List Nat :=
  [1116352408, 1899447441, 3049323471, 3921009573, 961987163,
   1508970993, 2453635748, 2870763221, 3624381080, 310598401,
   607225278, 1426881987, 1925078388, 2162078206, 2614888103,
   3248222580, 3835390401, 4022224774, 264347078, 604807628,
   770255983, 1249150122, 1555081692, 1996064986, 2554220882,
   2821834349, 2952996808, 3210313671, 3336571891, 3584528711,
   113926993, 338241895, 666307205, 773529912, 1294757372,
   1396182291, 1695183700, 1986661051, 2177026350, 2456956037,
   2730485921, 2820302411, 3259730800, 3345764771, 3516065817,
   3600352804, 4094571909, 275423344, 430227734, 506948616,
   659060556, 883997877, 958139571, 1322822218, 1537002063,
   1747873779, 1955562222, 2024104815, 2227730452, 2361852424,
   2428436474, 2756734187, 3204031479, 3329325298]

/-- The 8 initial SHA-256 hash values (FIPS 180-4 §5.3.3, in
decimal). -/
def shaH0 : List Nat :=
  [1779033703, 3144134277, 1013904242, 2773480762, 1359893119,
   2600822924, 528734635, 1541459225]

/-- A natural number as `width` big-endian bytes. -/
def toBytesBE (width n : Nat) : List Nat :=
  (List.range width).map (fun i => (n >>> (8 * (width - 1 - i))) % 256)

/-- A 64-byte chunk as 16 big-endian 32-bit words. -/
def chunkWords (chunk : List Nat) : List Nat :=
  (List.range 16).map (fun i =>
    (((chunk.getD (4 * i) 0 <<< 24) ||| (chunk.getD (4 * i + 1) 0 <<< 16)) |||
      (chunk.getD (4 * i + 2) 0 <<< 8)) ||| chunk.getD (4 * i + 3) 0)

/-- One message-schedule extension step: append
`σ₁(w[t-2]) + w[t-7] + σ₀(w[t-15]) + w[t-16]`. -/
def scheduleStep (w : List Nat) : List Nat :=
  w ++ [add32 (add32 (smallSigma1 (w.getD (w.length - 2) 0))
                     (w.getD (w.length - 7) 0))
              (add32 (smallSigma0 (w.getD (w.length - 15) 0))
                     (w.getD (w.length - 16) 0))]

/-- The 64-entry message schedule of a chunk. -/
def messageSchedule (chunk : List Nat) : List Nat :=
  Nat.iterate scheduleStep 48 (chunkWords chunk)

/-- One compression round; the state is the list `[a,b,c,d,e,f,g,h]`
and `kw` pairs the round constant with the schedule word. -/
def shaRound (st : List Nat) (kw : Nat × Nat) : List Nat :=
  match st with
  | [a, b, c, d, e, f, g, h] =>
    let t1 := add32 h (add32 (bigSigma1 e) (add32 (shaCh e f g) (add32 kw.1 kw.2)))
    let t2 := add32 (bigSigma0 a) (shaMaj a b c)
    [add32 t1 t2, a, b, c, add32 d t1, e, f, g]
  | other => other

/-- Compression of one 64-byte chunk into the running hash. -/
def compressChunk (h : List Nat) (chunk : List Nat) : List Nat :=
  let st := ((shaK.zip (messageSchedule chunk)).foldl shaRound h)
  List.zipWith add32 h st

/-- SHA-256 padding: append `0x80`, zeros to 56 mod 64, then the bit
length as 8 big-endian bytes. -/
def shaPad (msg : List Nat) : List Nat :=
  let L := msg.length
  msg ++ 0x80 :: List.replicate ((64 + 56 - (L + 1) % 64) % 64) 0 ++
    toBytesBE 8 (8 * L)

/-- Split a byte list into 64-byte chunks; the `fuel` argument (any
bound on the number of chunks, here the list length) makes the
recursion structural. -/
def chunks64Fuel : Nat → List Nat → List (List Nat)
  | 0, _ => []
  | _, [] => []
  | fuel + 1, l => l.take 64 :: chunks64Fuel fuel (l.drop 64)

/-- Split a byte list into 64-byte chunks. -/
def chunks64 (l : List Nat) : List (List Nat) :=
  chunks64Fuel l.length l

/-- SHA-256 digest of a byte list, as 32 bytes. -/
def sha256 (msg : List Nat) : List Nat :=
  (((chunks64 (shaPad msg)).foldl compressChunk shaH0).map (toBytesBE 4)).flatten

/-- A hex digit as a lowercase character (Go `encoding/hex`). -/
def hexDigit (n : Nat) : Char :=
  if n < 10 then Char.ofNat (48 + n) else Char.ofNat (87 + n)

/-- Go `hex.EncodeToString` on a byte list. -/
def hexEncode (bytes : List Nat) : List Char :=
  (bytes.map (fun b => [hexDigit (b / 16), hexDigit (b % 16)])).flatten

/-- UTF-8 encoding of one code point (Go strings are UTF-8, so
`[]byte(path)` yields these bytes). -/
def utf8EncodeChar (c : Char) : List Nat :=
  let n := c.toNat
  if n < 0x80 then [n]
  else if n < 0x800 then
    [0xC0 ||| (n >>> 6), 0x80 ||| (n &&& 0x3F)]
  else if n < 0x10000 then
    [0xE0 ||| (n >>> 12), 0x80 ||| ((n >>> 6) &&& 0x3F), 0x80 ||| (n &&& 0x3F)]
  else
    [0xF0 ||| (n >>> 18), 0x80 ||| ((n >>> 12) &&& 0x3F),
     0x80 ||| ((n >>> 6) &&& 0x3F), 0x80 ||| (n &&& 0x3F)]

/-- Go `[]byte(s)`: the UTF-8 bytes of a string. -/
def utf8Bytes (s : String) : List Nat :=
  (s.data.map utf8EncodeChar).flatten

namespace Config

/-- `GenerateProjectID` from config/global_state.go:
`hex.EncodeToString(sha256.Sum256([]byte(repoPath)))[:16]`. -/
def GenerateProjectID (repoPath : String) : String :=
  ⟨(hexEncode (sha256 (utf8Bytes repoPath))).take 16⟩

end Config

namespace Session

/-- `GenerateProjectID` from the session package's project storage file
(same body as the config copy). -/
def GenerateProjectID (repoPath : String) : String :=
  ⟨(hexEncode (sha256 (utf8Bytes repoPath))).take 16⟩

end Session

/-! ## Per-project storage (session package, project storage file)

Wall-clock times (`time.Now()`) are passed in as an explicit `now`
parameter of type `Nat`; the on-disk `state.json` is modelled by the
`ProjectState` value it holds (a missing file loads as the default
state, so every well-formed store state is a `ProjectState`).  The
failure modes of the claims — instance cap and duplicate title — return
before any write, which the model reflects by returning `Except`. -/

/-- The constant `ProjectInstanceLimit = 10`. -/
def ProjectInstanceLimit : Nat := 10

/-- `GitWorktreeData`, the nested worktree record of a serialized
instance.  Modelled from the spec: the Go file declaring it is not
under src/; §3 "Serialized Instance" lists "repository path, worktree
path, session name, branch name, base-commit hash". -/
structure GitWorktreeData where
  repoPath : String
  worktreePath : String
  sessionName : String
  branchName : String
  baseCommitSHA : String
deriving DecidableEq, Repr

/-- `DiffStatsData`, the flattened diff-stats record of a serialized
instance.  Modelled from the spec: the Go file declaring it is not
under src/; §3 lists "added lines, removed lines, unified diff text". -/
structure DiffStatsData where
  added : Nat
  removed : Nat
  content : String
deriving DecidableEq, Repr

/-- Instance status (session/instance.go): `Running`, `Ready`,
`Loading`, `Paused`. -/
inductive Status where
  | Running
  | Ready
  | Loading
  | Paused
deriving DecidableEq, Repr

/-- `InstanceData`, one serialized instance record.  Modelled from the
spec: the Go file declaring it is not under src/; §3 "Serialized
Instance" says it mirrors the Instance attributes plus the nested
worktree record plus a flattened DiffStats.  Only `title` is consulted
by the storage operations under proof. -/
structure InstanceData where
  title : String
  displayName : String
  path : String
  branch : String
  status : Status
  height : Nat
  width : Nat
  createdAt : Nat
  updatedAt : Nat
  autoYes : Bool
  program : String
  worktree : GitWorktreeData
  diffStats : DiffStatsData
deriving DecidableEq, Repr

/-- `ProjectData` from the session package's project storage file. -/
structure ProjectData where
  id : String
  name : String
  repoPath : String
  createdAt : Nat
  updatedAt : Nat
  instanceCount : Nat
deriving DecidableEq, Repr

/-- `ProjectState` from the session package's project storage file. -/
structure ProjectState where
  project : ProjectData
  instances : List InstanceData
deriving DecidableEq, Repr

/-- `ProjectStorage.SaveInstances`: store the list, set
`InstanceCount = len(instances)`, refresh `UpdatedAt`, write the state
(`SaveProjectState` serialization errors cannot occur for this data,
so the save is modelled as total). -/
def SaveInstances (ps : ProjectState) (instances : List InstanceData)
    (now : Nat) : ProjectState :=
  { project := { ps.project with
                   instanceCount := instances.length
                   updatedAt := now }
    instances := instances }

/-- `ProjectStorage.AddInstance`: reject at the instance cap, reject a
duplicate title, otherwise append and save. -/
def AddInstance (ps : ProjectState) (inst : InstanceData) (now : Nat) :
    Except String ProjectState :=
  if ps.instances.length ≥ ProjectInstanceLimit then
    .error "project instance limit reached: maximum 10 instances allowed"
  else if ps.instances.any (fun existing => existing.title == inst.title) then
    .error ("instance with title '" ++ inst.title ++ "' already exists")
  else
    .ok (SaveInstances ps (ps.instances ++ [inst]) now)

/-- Replace the first element whose title matches (the loop of
`UpdateInstance`, which breaks after the first hit). -/
def replaceFirstByTitle (inst : InstanceData) :
    List InstanceData → Option (List InstanceData)
  | [] => none
  | existing :: rest =>
    if existing.title == inst.title then some (inst :: rest)
    else (replaceFirstByTitle inst rest).map (existing :: ·)

/-- `ProjectStorage.UpdateInstance`: replace the matching record or
fail with not-found. -/
def UpdateInstance (ps : ProjectState) (inst : InstanceData) (now : Nat) :
    Except String ProjectState :=
  match replaceFirstByTitle inst ps.instances with
  | some instances => .ok (SaveInstances ps instances now)
  | none => .error ("instance not found: " ++ inst.title)

/-- `ProjectStorage.DeleteInstance`: drop every record with the title,
fail if none matched. -/
def DeleteInstance (ps : ProjectState) (title : String) (now : Nat) :
    Except String ProjectState :=
  if ps.instances.any (fun inst => inst.title == title) then
    .ok (SaveInstances ps (ps.instances.filter (fun inst => !(inst.title == title))) now)
  else
    .error ("instance not found: " ++ title)

/-- `ProjectStorage.DeleteAllInstances`. -/
def DeleteAllInstances (ps : ProjectState) (now : Nat) : ProjectState :=
  SaveInstances ps [] now

/-- The persisted state after an `AddInstance` call: a failed add
returns before any write, leaving the file as it was. -/
def persistedAfterAdd (ps : ProjectState) (inst : InstanceData) (now : Nat) :
    ProjectState :=
  match AddInstance ps inst now with
  | .ok written => written
  | .error _ => ps

/-! ## Instance (session/instance.go)

The tmux and git-worktree handles are external resources; the one
operation of theirs the claims need, `gitWorktree.Diff()`, is passed in
as the value it would return.  `filepath.Abs` depends on the process
working directory, so its result is likewise a parameter. -/

/-- `git.DiffStats` as consumed by `Instance.UpdateDiffStats`:
the counts, the unified diff text, and the `Error` field. -/
structure DiffStats where
  added : Nat
  removed : Nat
  content : String
  error : Option String
deriving DecidableEq, Repr

/-- The fields of `Instance` (session/instance.go) that its pure
lifecycle operations read and write; the derived tmux/git handles are
kept outside the model. -/
structure Instance where
  title : String
  displayName : String
  path : String
  branch : String
  status : Status
  program : String
  height : Nat
  width : Nat
  createdAt : Nat
  updatedAt : Nat
  autoYes : Bool
  prompt : String
  diffStats : Option DiffStats
  started : Bool
deriving DecidableEq, Repr

/-- Go `strings.HasPrefix` on character lists (does the first list
start with the second). -/
def listStartsWith : List Char → List Char → Bool
  | _, [] => true
  | [], _ :: _ => false
  | a :: t, b :: u => a == b && listStartsWith t u

/-- Go `strings.Contains` on character lists. -/
def listContains : List Char → List Char → Bool
  | [], needle => needle.isEmpty
  | a :: t, needle => listStartsWith (a :: t) needle || listContains t needle

/-- Go `strings.Contains`. -/
def strContains (s sub : String) : Bool := listContains s.data sub.data

/-- `Instance.UpdateDiffStats` (session/instance.go); `diff` is the
value `i.gitWorktree.Diff()` returns.  The result pairs the returned
error (if any) with the instance as mutated. -/
def UpdateDiffStats (i : Instance) (diff : DiffStats) :
    Except String Instance :=
  if !i.started then
    .ok { i with diffStats := none }
  else if i.status = Status.Paused then
    .ok i
  else
    match diff.error with
    | some e =>
      if strContains e "base commit SHA not set" then
        .ok { i with diffStats := none }
      else
        .error ("failed to get diff stats: " ++ e)
    | none => .ok { i with diffStats := some diff }

/-- `Instance.SetTitle` (session/instance.go). -/
def SetTitle (i : Instance) (title : String) : Except String Instance :=
  if i.started then
    .error "cannot change title of a started instance"
  else
    .ok { i with title := title }

/-- `InstanceOptions` (session/instance.go). -/
structure InstanceOptions where
  title : String
  path : String
  program : String
  autoYes : Bool
deriving DecidableEq, Repr

/-- `NewInstance` (session/instance.go); `absResult` is what
`filepath.Abs(opts.Path)` returns (it depends on the process working
directory).  Note the source sets `AutoYes: false` in the literal; the
unmentioned `Branch`, `Prompt`, `diffStats` fields stay at their Go
zero values. -/
def NewInstance (opts : InstanceOptions) (absResult : Except String String)
    (now : Nat) : Except String Instance :=
  match absResult with
  | .error e => .error ("failed to get absolute path: " ++ e)
  | .ok absPath =>
    .ok { title := opts.title
          displayName := opts.title
          path := absPath
          branch := ""
          status := Status.Ready
          program := opts.program
          height := 0
          width := 0
          createdAt := now
          updatedAt := now
          autoYes := false
          prompt := ""
          diffStats := none
          started := false }

/-! ## Global state (config/global_state.go)

The file `global_state.json` is modelled by a `GlobalFile`: missing
(loads as the default state), holding a state, or unparseable. -/

/-- `GlobalProjectData` from config/global_state.go. -/
structure GlobalProjectData where
  id : String
  name : String
  repoPath : String
  createdAt : Nat
  updatedAt : Nat
  instanceCount : Nat
deriving DecidableEq, Repr

/-- `GlobalState` from config/global_state.go. -/
structure GlobalState where
  projects : List GlobalProjectData
  helpScreensSeen : Nat
  lastMigrationVersion : Int
deriving DecidableEq, Repr

/-- `DefaultGlobalState`. -/
def DefaultGlobalState : GlobalState :=
  { projects := [], helpScreensSeen := 0, lastMigrationVersion := 0 }

/-- The condition of `global_state.json` on disk. -/
inductive GlobalFile where
  | missing
  | stored (s : GlobalState)
  | corrupt
deriving DecidableEq, Repr

/-- `GlobalStateManager.LoadGlobalState`: a missing file yields the
default state, an unparseable file yields an error, otherwise the
stored state. -/
def LoadGlobalState : GlobalFile → Except String GlobalState
  | .missing => .ok DefaultGlobalState
  | .stored s => .ok s
  | .corrupt => .error "failed to parse global state"

/-- `GlobalStateManager` (config/global_state.go): the cached
`gsm.state` pointer and the file on disk. -/
structure GlobalStateManager where
  cache : Option GlobalState
  file : GlobalFile
deriving DecidableEq, Repr

/-- `GlobalStateManager.GetOrCreateGlobalState`: the cached state if
present; otherwise load, and on a load error log a warning and fall
back to the default state.  Never fails.  Returns the state and the
manager with its cache filled. -/
def GetOrCreateGlobalState (gsm : GlobalStateManager) :
    GlobalState × GlobalStateManager :=
  match gsm.cache with
  | some s => (s, gsm)
  | none =>
    let s := match LoadGlobalState gsm.file with
      | .ok s => s
      | .error _ => DefaultGlobalState
    (s, { gsm with cache := some s })

/-- `GlobalStateManager.SaveGlobalState` applied to state `s`: the
in-memory state is written out (serialization of this data cannot
fail, so the save is modelled as total). -/
def SaveGlobalState (s : GlobalState) : GlobalStateManager :=
  { cache := some s, file := .stored s }

/-- The project-list update of `AddProject`: the loop updates the
first record with the identifier (and returns), otherwise the new
record is appended with `InstanceCount: 0`. -/
def upsertProject (pid name repoPath : String) (now : Nat) :
    List GlobalProjectData → List GlobalProjectData
  | [] => [{ id := pid, name := name, repoPath := repoPath,
             createdAt := now, updatedAt := now, instanceCount := 0 }]
  | p :: rest =>
    if p.id == pid then
      { p with name := name, repoPath := repoPath, updatedAt := now } :: rest
    else
      p :: upsertProject pid name repoPath now rest

/-- `GlobalStateManager.AddProject`. -/
def AddProject (gsm : GlobalStateManager) (pid name repoPath : String)
    (now : Nat) : Except String Unit × GlobalStateManager :=
  let (s, _) := GetOrCreateGlobalState gsm
  (.ok (), SaveGlobalState { s with projects := upsertProject pid name repoPath now s.projects })

/-- The project-list update of `UpdateProjectInstanceCount`: set the
count and refresh `UpdatedAt` on the first record with the identifier,
or report not-found. -/
def setProjectCount (pid : String) (count : Nat) (now : Nat) :
    List GlobalProjectData → Except String (List GlobalProjectData)
  | [] => .error ("project not found: " ++ pid)
  | p :: rest =>
    if p.id == pid then
      .ok ({ p with instanceCount := count, updatedAt := now } :: rest)
    else
      (setProjectCount pid count now rest).map (p :: ·)

/-- `GlobalStateManager.UpdateProjectInstanceCount`. -/
def UpdateProjectInstanceCount (gsm : GlobalStateManager) (pid : String)
    (count : Nat) (now : Nat) : Except String Unit × GlobalStateManager :=
  let (s, g) := GetOrCreateGlobalState gsm
  match setProjectCount pid count now s.projects with
  | .ok projects => (.ok (), SaveGlobalState { s with projects := projects })
  | .error e => (.error e, g)

/-- `GlobalStateManager.GetProject`: linear scan, `nil, nil` when the
project is absent. -/
def GetProject (gsm : GlobalStateManager) (pid : String) :
    Except String (Option GlobalProjectData) × GlobalStateManager :=
  let (s, g) := GetOrCreateGlobalState gsm
  (.ok (s.projects.find? (fun p => p.id == pid)), g)

/-- `GlobalStateManager.GetAllProjects`. -/
def GetAllProjects (gsm : GlobalStateManager) :
    Except String (List GlobalProjectData) × GlobalStateManager :=
  let (s, g) := GetOrCreateGlobalState gsm
  (.ok s.projects, g)

/-- `GlobalStateManager.RemoveProject`. -/
def RemoveProject (gsm : GlobalStateManager) (pid : String) :
    Except String Unit × GlobalStateManager :=
  let (s, g) := GetOrCreateGlobalState gsm
  if s.projects.any (fun p => p.id == pid) then
    (.ok (), SaveGlobalState
      { s with projects := s.projects.filter (fun p => !(p.id == pid)) })
  else
    (.error ("project not found: " ++ pid), g)

/-- `GlobalStateManager.GetHelpScreensSeen` (returns 0 on error, which
the model's total loader never produces). -/
def GetHelpScreensSeen (gsm : GlobalStateManager) :
    Nat × GlobalStateManager :=
  let (s, g) := GetOrCreateGlobalState gsm
  (s.helpScreensSeen, g)

/-- `GlobalStateManager.SetHelpScreensSeen`. -/
def SetHelpScreensSeen (gsm : GlobalStateManager) (seen : Nat) :
    Except String Unit × GlobalStateManager :=
  let (s, _) := GetOrCreateGlobalState gsm
  (.ok (), SaveGlobalState { s with helpScreensSeen := seen })

/-! ## Legacy-state migration (config/global_state.go)

`MigrateLegacyState` parses a legacy array, groups records by
`worktree.repo_path` (falling back to the instance path), upserts one
project per group and sets its count, then marks the migration done.
Go's `map` iteration order is unspecified; the model visits groups in
first-occurrence order of their keys — the properties proved below
(membership, counts, sizes, idempotence) are the order-independent
ones, which hold in Go for every iteration order. -/

/-- A generic drop-from-the-end loop (used for Go `filepath.Base`'s
trailing-separator strip and by `strings.Trim`'s right half). -/
def dropEndWhile (p : Char → Bool) : List Char → List Char
  | [] => []
  | a :: t =>
    let r := dropEndWhile p t
    if r.isEmpty && p a then [] else a :: r

/-- Go `filepath.Base` (unix rules): `""` is `"."`; trailing slashes
are dropped; the part after the last slash remains; all-slash input is
`"/"`. -/
def goFilepathBase (path : String) : String :=
  if path = "" then "."
  else
    let stripped := dropEndWhile (fun c => c == '/') path.data
    if stripped.isEmpty then "/"
    else ⟨(stripped.reverse.takeWhile (fun c => !(c == '/'))).reverse⟩

/-- `LegacyInstanceData.Worktree` (the anonymous struct in
`MigrateLegacyState`). -/
structure LegacyWorktree where
  repoPath : String
  worktreePath : String
  sessionName : String
  branchName : String
  baseCommitSHA : String
deriving DecidableEq, Repr

/-- `LegacyInstanceData` (the local struct of `MigrateLegacyState`);
only `Path` and `Worktree.RepoPath` are consulted by the migration. -/
structure LegacyInstanceData where
  title : String
  displayName : String
  path : String
  branch : String
  status : Int
  height : Nat
  width : Nat
  createdAt : Nat
  updatedAt : Nat
  autoYes : Bool
  program : String
  worktree : LegacyWorktree
deriving DecidableEq, Repr

/-- The repository key of one legacy record: `worktree.repo_path`,
falling back to the instance path when empty. -/
def legacyRepoKey (inst : LegacyInstanceData) : String :=
  if inst.worktree.repoPath = "" then inst.path else inst.worktree.repoPath

/-- Add one record to its key's bucket (buckets keep first-occurrence
key order; records keep list order, as Go's `append` does). -/
def insertGroup (key : String) (inst : LegacyInstanceData) :
    List (String × List LegacyInstanceData) →
    List (String × List LegacyInstanceData)
  | [] => [(key, [inst])]
  | (k, bucket) :: rest =>
    if k == key then (k, bucket ++ [inst]) :: rest
    else (k, bucket) :: insertGroup key inst rest

/-- `projectsByRepo`: group the legacy records by repository key. -/
def groupByRepo (legacy : List LegacyInstanceData) :
    List (String × List LegacyInstanceData) :=
  legacy.foldl (fun acc inst => insertGroup (legacyRepoKey inst) inst acc) []

/-- The per-group body of the migration loop: `AddProject` (upsert)
followed by `UpdateProjectInstanceCount`; a count-update failure is
logged and skipped (`continue`), which for a freshly upserted project
cannot occur. -/
def migrateGroup (now : Nat) (projects : List GlobalProjectData)
    (group : String × List LegacyInstanceData) : List GlobalProjectData :=
  let pid := Config.GenerateProjectID group.1
  let upserted := upsertProject pid (goFilepathBase group.1) group.1 now projects
  match setProjectCount pid group.2.length now upserted with
  | .ok updated => updated
  | .error _ => upserted

/-- `GlobalStateManager.MigrateLegacyState` on an already-parsed legacy
array (a parse failure returns before any state change): if
`LastMigrationVersion ≥ 1` nothing happens; an empty array only sets
the version; otherwise each group is upserted with its count and the
version is set to 1.  All saves succeed in the model, so the function
is the induced transition on the persisted `GlobalState`. -/
def MigrateLegacyState (s : GlobalState)
    (legacy : List LegacyInstanceData) (now : Nat) : GlobalState :=
  if s.lastMigrationVersion ≥ 1 then s
  else if legacy.isEmpty then { s with lastMigrationVersion := 1 }
  else
    { s with
        projects := (groupByRepo legacy).foldl (migrateGroup now) s.projects
        lastMigrationVersion := 1 }

/-! ## Claim-side predicates (written from the specification's words,
for comparison against the source-derived functions) -/

/-- The class `[a-z0-9]` of the spec's branch-identifier pattern. -/
def isLowerAlnum (c : Char) : Bool :=
  ('a' ≤ c && c ≤ 'z') || ('0' ≤ c && c ≤ '9')

/-- The spec's claimed shape of `sanitizeIdentifier` output, from its
words: matches `^[a-z0-9][a-z0-9_-]*[a-z0-9]$` — a first and a last
character in `[a-z0-9]` with middle characters in `[a-z0-9_-]` (so at
least two characters). -/
def claimedBranchPattern (l : List Char) : Bool :=
  match l with
  | [] => false
  | [_] => false
  | first :: r :: rest =>
    isLowerAlnum first &&
      ((r :: rest).dropLast.all isSafeIdentChar) &&
      isLowerAlnum ((r :: rest).getLast (by simp))

/-- No two adjacent dashes. -/
def noDoubleDash : List Char → Bool
  | [] => true
  | [_] => true
  | a :: b :: t => !(a == '-' && b == '-') && noDoubleDash (b :: t)

/-- The corrected shape of a non-empty `sanitizeIdentifier` output:
only `[a-z0-9_-]` characters, no dash at either end, no dash run. -/
def identShape (l : List Char) : Bool :=
  l.all isSafeIdentChar && !(l.head? == some '-') &&
    !(l.getLast? == some '-') && noDoubleDash l

/-- A lowercase hexadecimal digit. -/
def isHexChar (c : Char) : Bool :=
  ('0' ≤ c && c ≤ '9') || ('a' ≤ c && c ≤ 'f')

/-- The class `[A-Za-z0-9_]` of the spec's tmux-session-name claim. -/
def isTmuxSafe (c : Char) : Bool :=
  ('A' ≤ c && c ≤ 'Z') || ('a' ≤ c && c ≤ 'z') ||
    ('0' ≤ c && c ≤ '9') || c = '_'

/-- Title characters for which the corrected tmux-name charset claim
holds: alphanumerics, underscore, dot, and whitespace. -/
def allowedTitleChar (c : Char) : Bool :=
  isTmuxSafe c || c = '.' || isGoSpace c

/-! ## Concrete sample values for witnesses and counterexamples -/

/-- An all-zero worktree record. -/
def sampleWorktree : GitWorktreeData :=
  { repoPath := "", worktreePath := "", sessionName := ""
    branchName := "", baseCommitSHA := "" }

/-- An all-zero serialized diff-stats record. -/
def sampleDiffData : DiffStatsData := { added := 0, removed := 0, content := "" }

/-- A serialized instance record with the given title. -/
def sampleInstanceData (t : String) : InstanceData :=
  { title := t, displayName := t, path := "/repo", branch := "b"
    status := Status.Ready, height := 0, width := 0, createdAt := 0
    updatedAt := 0, autoYes := false, program := "claude"
    worktree := sampleWorktree, diffStats := sampleDiffData }

/-- A project metadata record. -/
def sampleProject : ProjectData :=
  { id := "0123456789abcdef", name := "repo", repoPath := "/repo"
    createdAt := 0, updatedAt := 0, instanceCount := 0 }

/-- An empty project state. -/
def sampleProjectState : ProjectState :=
  { project := sampleProject, instances := [] }

/-- A not-yet-started instance with title `"t"`. -/
def sampleInstance : Instance :=
  { title := "t", displayName := "t", path := "/repo", branch := ""
    status := Status.Ready, program := "claude", height := 0, width := 0
    createdAt := 0, updatedAt := 0, autoYes := false, prompt := ""
    diffStats := none, started := false }

/-- A 33-character title. -/
def title33 : String := "abcdefghijklmnopqrstuvwxyz0123456"

/-- A project state already holding one instance titled `"a"`. -/
def sampleStateWithA : ProjectState :=
  { sampleProjectState with instances := [sampleInstanceData "a"] }

/-- A legacy instance record whose worktree records `repo` as the
repository path. -/
def sampleLegacy (repo : String) : LegacyInstanceData :=
  { title := "t", displayName := "t", path := repo, branch := "b"
    status := 0, height := 0, width := 0, createdAt := 0, updatedAt := 0
    autoYes := false, program := "claude"
    worktree := { repoPath := repo, worktreePath := "", sessionName := ""
                  branchName := "", baseCommitSHA := "" } }

/-! # Theorems

## Digest shape lemmas (for C3) -/

theorem toBytesBE_length (w n : Nat) : (toBytesBE w n).length = w := by
  simp [toBytesBE]

theorem shaRound_length (st : List Nat) (kw : Nat × Nat)
    (h : st.length = 8) : (shaRound st kw).length = 8 := by
  rcases st with _ | ⟨a, _ | ⟨b, _ | ⟨c, _ | ⟨d, _ | ⟨e, _ | ⟨f, _ | ⟨g, _ |
    ⟨k, _ | ⟨x, t⟩⟩⟩⟩⟩⟩⟩⟩⟩ <;> simp_all [shaRound]

theorem foldl_shaRound_length (l : List (Nat × Nat)) (st : List Nat)
    (h : st.length = 8) : (l.foldl shaRound st).length = 8 := by
  induction l generalizing st with
  | nil => exact h
  | cons kw rest ih => exact ih _ (shaRound_length st kw h)

theorem compressChunk_length (h : List Nat) (chunk : List Nat)
    (hl : h.length = 8) : (compressChunk h chunk).length = 8 := by
  unfold compressChunk
  rw [List.length_zipWith, hl, foldl_shaRound_length _ _ hl]
  rfl

theorem foldl_compress_length (chunks : List (List Nat)) (h : List Nat)
    (hl : h.length = 8) : (chunks.foldl compressChunk h).length = 8 := by
  induction chunks generalizing h with
  | nil => exact hl
  | cons c rest ih => exact ih _ (compressChunk_length h c hl)

theorem flatten_toBytesBE_length (hs : List Nat) :
    ((hs.map (toBytesBE 4)).flatten).length = 4 * hs.length := by
  induction hs with
  | nil => rfl
  | cons a t ih => simp only [List.map_cons, List.flatten_cons,
      List.length_append, List.length_cons, toBytesBE_length, ih]; omega

theorem sha256_length (msg : List Nat) : (sha256 msg).length = 32 := by
  unfold sha256
  rw [flatten_toBytesBE_length,
    foldl_compress_length _ _ (show shaH0.length = 8 by rfl)]

theorem hexEncode_length (bs : List Nat) :
    (hexEncode bs).length = 2 * bs.length := by
  induction bs with
  | nil => rfl
  | cons b t ih => simp [hexEncode] at ih ⊢; omega

theorem mem_toBytesBE (b w n : Nat) (h : b ∈ toBytesBE w n) : b < 256 := by
  simp [toBytesBE] at h
  obtain ⟨i, _, hi⟩ := h
  omega

theorem mem_sha256_lt (b : Nat) (msg : List Nat) (h : b ∈ sha256 msg) :
    b < 256 := by
  unfold sha256 at h
  rw [List.mem_flatten] at h
  obtain ⟨l, hl, hb⟩ := h
  rw [List.mem_map] at hl
  obtain ⟨w, _, rfl⟩ := hl
  exact mem_toBytesBE b 4 w hb

theorem hexDigit_isHex (n : Nat) (h : n < 16) : isHexChar (hexDigit n) = true := by
  interval_cases n <;> decide

theorem mem_hexEncode (c : Char) (bs : List Nat)
    (hlt : ∀ b ∈ bs, b < 256) (h : c ∈ hexEncode bs) : isHexChar c = true := by
  unfold hexEncode at h
  rw [List.mem_flatten] at h
  obtain ⟨l, hl, hc⟩ := h
  rw [List.mem_map] at hl
  obtain ⟨b, hb, rfl⟩ := hl
  have hblt := hlt b hb
  simp only [List.mem_cons, List.not_mem_nil, or_false] at hc
  rcases hc with rfl | rfl
  · exact hexDigit_isHex _ (by omega)
  · exact hexDigit_isHex _ (Nat.mod_lt _ (by omega))

/-- C3: `GenerateProjectID(p)` is the first 16 hexadecimal characters
of the SHA-256 hash of `p` (16 characters long, all lowercase hex
digits), it is deterministic, and the config-package and
session-package copies compute the same value on every input. -/
theorem generateProjectID_spec (p q : String) :
    Config.GenerateProjectID p =
      ⟨(hexEncode (sha256 (utf8Bytes p))).take 16⟩ ∧
    Session.GenerateProjectID p = Config.GenerateProjectID p ∧
    (p = q → Config.GenerateProjectID p = Config.GenerateProjectID q) ∧
    (Config.GenerateProjectID p).length = 16 ∧
    (∀ c ∈ (Config.GenerateProjectID p).data, isHexChar c = true) := by
  refine ⟨rfl, rfl, fun h => h ▸ rfl, ?_, ?_⟩
  · show ((hexEncode (sha256 (utf8Bytes p))).take 16).length = 16
    rw [List.length_take, hexEncode_length, sha256_length]
    rfl
  · intro c hc
    have hmem : c ∈ hexEncode (sha256 (utf8Bytes p)) :=
      List.mem_of_mem_take hc
    exact mem_hexEncode c _ (fun b hb => mem_sha256_lt b _ hb) hmem

/-- Witness for C3 at the concrete path `"/r"`. -/
theorem generateProjectID_spec_witness :
    Config.GenerateProjectID "/r" = Config.GenerateProjectID "/r" ∧
    (Config.GenerateProjectID "/r").length = 16 :=
  ⟨(generateProjectID_spec "/r" "/r").2.2.1 rfl,
   (generateProjectID_spec "/r" "/r").2.2.2.1⟩

/-! ## C2: UpdateDiffStats -/

/-- C2: `UpdateDiffStats` clears the cached stats and returns nil when
the instance has not started; when started and paused it returns nil
leaving the stats unchanged; otherwise it inspects the worktree's
`Diff()` value: a "base commit SHA not set" error clears the stats and
returns nil, any other error is returned wrapped (the instance
untouched), and a clean result is stored. -/
theorem updateDiffStats_spec (i : Instance) (d : DiffStats) :
    (i.started = false →
      UpdateDiffStats i d = .ok { i with diffStats := none }) ∧
    (i.started = true → i.status = Status.Paused →
      UpdateDiffStats i d = .ok i) ∧
    (i.started = true → i.status ≠ Status.Paused →
      (∀ e, d.error = some e →
        (strContains e "base commit SHA not set" = true →
          UpdateDiffStats i d = .ok { i with diffStats := none }) ∧
        (strContains e "base commit SHA not set" = false →
          UpdateDiffStats i d = .error ("failed to get diff stats: " ++ e))) ∧
      (d.error = none →
        UpdateDiffStats i d = .ok { i with diffStats := some d })) := by
  refine ⟨?_, ?_, ?_⟩
  · intro h
    simp [UpdateDiffStats, h]
  · intro h1 h2
    simp [UpdateDiffStats, h1, h2]
  · intro h1 h2
    refine ⟨?_, ?_⟩
    · intro e he
      refine ⟨fun hc => ?_, fun hc => ?_⟩ <;>
        simp [UpdateDiffStats, h1, h2, he, hc]
    · intro he
      simp [UpdateDiffStats, h1, h2, he]

/-- Witness for C2: a not-started instance has its cached stats
cleared. -/
theorem updateDiffStats_spec_witness :
    UpdateDiffStats sampleInstance
        { added := 0, removed := 0, content := "", error := none } =
      .ok { sampleInstance with diffStats := none } :=
  (updateDiffStats_spec sampleInstance
    { added := 0, removed := 0, content := "", error := none }).1 rfl

/-! ## C4: SetTitle (claim corrected: no length check in SetTitle) -/

/-- C4 counterexample: `SetTitle` accepts a 33-character title on a
not-started instance — it returns nil and changes the title, where the
claim says it must fail. -/
theorem setTitle_spec_counterexample :
    title33.length = 33 ∧ sampleInstance.started = false ∧
    SetTitle sampleInstance title33 =
      .ok { sampleInstance with title := title33 } :=
  ⟨rfl, rfl, rfl⟩

/-- C4 as amended: `SetTitle` fails exactly when the instance has
started (leaving the title unchanged); on a not-started instance it
sets the title — of any length — and returns nil.  The 32-character
limit is enforced by the UI layer before it calls `SetTitle`, not by
`SetTitle` itself. -/
theorem setTitle_spec (i : Instance) (t : String) :
    (i.started = true →
      SetTitle i t = .error "cannot change title of a started instance") ∧
    (i.started = false → SetTitle i t = .ok { i with title := t }) := by
  refine ⟨fun h => ?_, fun h => ?_⟩ <;> simp [SetTitle, h]

/-- Witness for C4's amended claim on a not-started instance. -/
theorem setTitle_spec_witness :
    SetTitle sampleInstance "x" = .ok { sampleInstance with title := "x" } :=
  (setTitle_spec sampleInstance "x").2 rfl

/-! ## C5: NewInstance (claim corrected: AutoYes is hardcoded false) -/

/-- C5 counterexample: `NewInstance` with `opts.AutoYes = true` yields
an instance whose auto-yes flag is `false` — the literal in the source
sets `AutoYes: false` and ignores the option. -/
theorem newInstance_spec_counterexample :
    (⟨"t", "p", "claude", true⟩ : InstanceOptions).autoYes = true ∧
    NewInstance ⟨"t", "p", "claude", true⟩ (.ok "/abs/p") 0 =
      .ok { title := "t", displayName := "t", path := "/abs/p", branch := ""
            status := Status.Ready, program := "claude", height := 0
            width := 0, createdAt := 0, updatedAt := 0, autoYes := false
            prompt := "", diffStats := none, started := false } :=
  ⟨rfl, rfl⟩

/-- C5 as amended: `NewInstance(opts)` returns an instance with
Status=Ready, started=false, DisplayName equal to the title, Path equal
to the absolute form of opts.Path, Program from opts, and auto-yes
always `false` (the opts flag is ignored); it fails exactly when the
path cannot be made absolute. -/
theorem newInstance_spec (opts : InstanceOptions) (p e : String) (now : Nat) :
    NewInstance opts (.ok p) now =
      .ok { title := opts.title, displayName := opts.title, path := p
            branch := "", status := Status.Ready, program := opts.program
            height := 0, width := 0, createdAt := now, updatedAt := now
            autoYes := false, prompt := "", diffStats := none
            started := false } ∧
    NewInstance opts (.error e) now =
      .error ("failed to get absolute path: " ++ e) :=
  ⟨rfl, rfl⟩

/-! ## C1: AddInstance cap, duplicate title, all-or-nothing failure -/

/-- C1: `AddInstance` fails when the store already holds
`ProjectInstanceLimit` (= 10) instances or an instance with the same
title, and on any such failure the persisted per-project state is
exactly the state before the call; otherwise the record is appended
and saved. -/
theorem addInstance_spec (ps : ProjectState) (inst : InstanceData)
    (now : Nat) :
    (ps.instances.length ≥ ProjectInstanceLimit ∨
        ps.instances.any (fun existing => existing.title == inst.title) = true →
      (¬ ∃ ps', AddInstance ps inst now = .ok ps') ∧
        persistedAfterAdd ps inst now = ps) ∧
    (ps.instances.length < ProjectInstanceLimit →
      ps.instances.any (fun existing => existing.title == inst.title) = false →
      AddInstance ps inst now =
          .ok (SaveInstances ps (ps.instances ++ [inst]) now) ∧
        persistedAfterAdd ps inst now =
          SaveInstances ps (ps.instances ++ [inst]) now) := by
  constructor
  · intro h
    have herr : ∃ e, AddInstance ps inst now = .error e := by
      unfold AddInstance
      rcases h with h | h
      · exact ⟨"project instance limit reached: maximum 10 instances allowed",
          by simp [h]⟩
      · by_cases hlim : ps.instances.length ≥ ProjectInstanceLimit
        · exact ⟨"project instance limit reached: maximum 10 instances allowed",
            by simp [hlim]⟩
        · exact ⟨"instance with title '" ++ inst.title ++ "' already exists",
            by simp [hlim, h]⟩
    obtain ⟨e, he⟩ := herr
    constructor
    · rintro ⟨ps', hps'⟩
      rw [he] at hps'
      cases hps'
    · simp [persistedAfterAdd, he]
  · intro h1 h2
    have hok : AddInstance ps inst now =
        .ok (SaveInstances ps (ps.instances ++ [inst]) now) := by
      unfold AddInstance
      simp [Nat.not_le.mpr h1, h2]
    exact ⟨hok, by simp [persistedAfterAdd, hok]⟩

/-- Witness for C1: a second instance titled `"a"` is rejected and the
persisted state is unchanged (spec scenario S5). -/
theorem addInstance_spec_witness :
    AddInstance sampleStateWithA (sampleInstanceData "a") 1 =
      .error "instance with title 'a' already exists" ∧
    persistedAfterAdd sampleStateWithA (sampleInstanceData "a") 1 =
      sampleStateWithA :=
  ⟨rfl, ((addInstance_spec sampleStateWithA (sampleInstanceData "a") 1).1
    (Or.inr rfl)).2⟩

/-! ## C9: the persisted count always matches the persisted list -/

/-- C9: after every `SaveInstances` the persisted project record's
`instance_count` equals the length of the persisted instances list and
its updated-at is refreshed to the save time; consequently the same
holds after every successful `AddInstance`, `UpdateInstance`,
`DeleteInstance` and after `DeleteAllInstances`, for every instances
list passed in. -/
theorem saveInstances_spec (ps : ProjectState) (l : List InstanceData)
    (inst : InstanceData) (title : String) (now : Nat) :
    ((SaveInstances ps l now).project.instanceCount =
        (SaveInstances ps l now).instances.length ∧
      (SaveInstances ps l now).project.updatedAt = now ∧
      (SaveInstances ps l now).instances = l) ∧
    (∀ ps', AddInstance ps inst now = .ok ps' →
      ps'.project.instanceCount = ps'.instances.length ∧
        ps'.project.updatedAt = now) ∧
    (∀ ps', UpdateInstance ps inst now = .ok ps' →
      ps'.project.instanceCount = ps'.instances.length ∧
        ps'.project.updatedAt = now) ∧
    (∀ ps', DeleteInstance ps title now = .ok ps' →
      ps'.project.instanceCount = ps'.instances.length ∧
        ps'.project.updatedAt = now) ∧
    ((DeleteAllInstances ps now).project.instanceCount =
        (DeleteAllInstances ps now).instances.length ∧
      (DeleteAllInstances ps now).project.updatedAt = now) := by
  refine ⟨⟨rfl, rfl, rfl⟩, ?_, ?_, ?_, ⟨rfl, rfl⟩⟩
  · intro ps' h
    unfold AddInstance at h
    split at h
    · cases h
    · split at h
      · cases h
      · cases h
        exact ⟨rfl, rfl⟩
  · intro ps' h
    unfold UpdateInstance at h
    split at h
    · cases h
      exact ⟨rfl, rfl⟩
    · cases h
  · intro ps' h
    unfold DeleteInstance at h
    split at h
    · cases h
      exact ⟨rfl, rfl⟩
    · cases h

/-- Witness for C9: a successful add stores a count equal to the list
length and the save time. -/
theorem saveInstances_spec_witness :
    AddInstance sampleProjectState (sampleInstanceData "a") 7 =
      .ok (SaveInstances sampleProjectState [sampleInstanceData "a"] 7) ∧
    (SaveInstances sampleProjectState [sampleInstanceData "a"] 7).project.instanceCount =
      (SaveInstances sampleProjectState [sampleInstanceData "a"] 7).instances.length ∧
    (SaveInstances sampleProjectState [sampleInstanceData "a"] 7).project.updatedAt = 7 :=
  ⟨rfl, (saveInstances_spec sampleProjectState [sampleInstanceData "a"]
    (sampleInstanceData "a") "t" 7).2.1 _ rfl⟩

/-! ## C10: a corrupt global_state.json is swallowed, not surfaced -/

/-- C10: `LoadGlobalState` errors on an unparseable file, but
`GetOrCreateGlobalState` swallows the error and proceeds with the
fresh default state (no projects, help bitmask 0, migration version
0); every public operation routed through it therefore succeeds as on
a fresh state, and the first save replaces the corrupted file with the
default-derived state rather than surfacing the parse error. -/
theorem corruptGlobalState_spec (pid name repoPath : String)
    (count : Nat) (now : Nat) :
    LoadGlobalState .corrupt = .error "failed to parse global state" ∧
    (GetOrCreateGlobalState ⟨none, .corrupt⟩).1 = DefaultGlobalState ∧
    DefaultGlobalState =
      { projects := [], helpScreensSeen := 0, lastMigrationVersion := 0 } ∧
    (GetProject ⟨none, .corrupt⟩ pid).1 = .ok none ∧
    (GetAllProjects ⟨none, .corrupt⟩).1 = .ok [] ∧
    (GetHelpScreensSeen ⟨none, .corrupt⟩).1 = 0 ∧
    (UpdateProjectInstanceCount ⟨none, .corrupt⟩ pid count now).1 =
      .error ("project not found: " ++ pid) ∧
    (RemoveProject ⟨none, .corrupt⟩ pid).1 =
      .error ("project not found: " ++ pid) ∧
    SetHelpScreensSeen ⟨none, .corrupt⟩ count =
      (.ok (), SaveGlobalState { DefaultGlobalState with helpScreensSeen := count }) ∧
    AddProject ⟨none, .corrupt⟩ pid name repoPath now =
      (.ok (), SaveGlobalState
        { DefaultGlobalState with
            projects := [{ id := pid, name := name, repoPath := repoPath
                           createdAt := now, updatedAt := now
                           instanceCount := 0 }] }) :=
  ⟨rfl, rfl, rfl, rfl, rfl, rfl, rfl, rfl, rfl, rfl⟩

/-! ## C8: the legacy-state migration -/

theorem migrate_version (s : GlobalState) (legacy : List LegacyInstanceData)
    (now : Nat) (h : ¬ s.lastMigrationVersion ≥ 1) :
    (MigrateLegacyState s legacy now).lastMigrationVersion = 1 := by
  unfold MigrateLegacyState
  rw [if_neg h]
  by_cases he : legacy.isEmpty <;> simp [he]

theorem migrate_noop (s : GlobalState) (legacy : List LegacyInstanceData)
    (now : Nat) (h : s.lastMigrationVersion ≥ 1) :
    MigrateLegacyState s legacy now = s := by
  simp [MigrateLegacyState, h]

set_option maxRecDepth 40000 in
/-- C8: `MigrateLegacyState` is one-shot — with
`last_migration_version ≥ 1` it changes nothing, otherwise it upserts
one project per repository-path group and sets the version to 1, so a
second run after a successful run changes nothing; and on the legacy
records with repository paths `/r`, `/r`, `/s` it produces exactly two
projects, with ids `GenerateProjectID "/r"` and `GenerateProjectID
"/s"`, names `r` and `s`, and instance counts 2 and 1. -/
theorem migrateLegacyState_spec (s : GlobalState)
    (legacy : List LegacyInstanceData) (now now2 : Nat) :
    (s.lastMigrationVersion ≥ 1 → MigrateLegacyState s legacy now = s) ∧
    MigrateLegacyState (MigrateLegacyState s legacy now) legacy now2 =
      MigrateLegacyState s legacy now ∧
    (MigrateLegacyState DefaultGlobalState
        [sampleLegacy "/r", sampleLegacy "/r", sampleLegacy "/s"] 3).lastMigrationVersion = 1 ∧
    (MigrateLegacyState DefaultGlobalState
        [sampleLegacy "/r", sampleLegacy "/r", sampleLegacy "/s"] 3).projects.map
        (fun p => (p.id, p.name, p.instanceCount)) =
      [(Config.GenerateProjectID "/r", "r", 2),
       (Config.GenerateProjectID "/s", "s", 1)] := by
  refine ⟨migrate_noop s legacy now, ?_, ?_, ?_⟩
  · by_cases h : s.lastMigrationVersion ≥ 1
    · rw [migrate_noop s legacy now h, migrate_noop s legacy now2 h]
    · have h1 := migrate_version s legacy now h
      exact migrate_noop _ legacy now2 (by omega)
  · decide
  · decide

/-- Witness for C8: on a state that already has migration version 1,
running the migration changes nothing. -/
theorem migrateLegacyState_spec_witness :
    MigrateLegacyState
        { projects := [], helpScreensSeen := 0, lastMigrationVersion := 1 }
        [] 0 =
      { projects := [], helpScreensSeen := 0, lastMigrationVersion := 1 } :=
  (migrateLegacyState_spec
    { projects := [], helpScreensSeen := 0, lastMigrationVersion := 1 }
    [] 0 0).1 (by decide)

/-! ## C7: the tmux session-name sanitizer (claim corrected) -/

theorem tmuxNameCore_chars (l : List Char) (c : Char)
    (h : c ∈ tmuxNameCore l) : isGoSpace c = false ∧ c ≠ '.' := by
  unfold tmuxNameCore at h
  rw [List.mem_map] at h
  obtain ⟨d, hd, rfl⟩ := h
  rw [List.mem_filter] at hd
  by_cases hdot : d = '.'
  · rw [if_pos hdot]
    exact ⟨by decide, by decide⟩
  · rw [if_neg hdot]
    refine ⟨?_, hdot⟩
    have := hd.2
    revert this
    cases isGoSpace d <;> simp

theorem tmuxNameCore_fix (m : List Char)
    (h : ∀ c ∈ m, isGoSpace c = false ∧ (if c = '.' then '_' else c) = c) :
    tmuxNameCore m = m := by
  induction m with
  | nil => rfl
  | cons a t ih =>
    have ha := h a (List.mem_cons_self a t)
    have ht := fun c hc => h c (List.mem_cons_of_mem a hc)
    show ((a :: t).filter _).map _ = a :: t
    rw [List.filter_cons_of_pos (by rw [ha.1]; rfl), List.map_cons, ha.2]
    exact congrArg (a :: ·) (ih ht)

theorem tmuxNameCore_idem (l : List Char) :
    tmuxNameCore (tmuxNameCore l) = tmuxNameCore l :=
  tmuxNameCore_fix _ (fun c hc => by
    obtain ⟨hs, hd⟩ := tmuxNameCore_chars l c hc
    exact ⟨hs, by rw [if_neg hd]⟩)

theorem tmuxNameCore_append (l₁ l₂ : List Char) :
    tmuxNameCore (l₁ ++ l₂) = tmuxNameCore l₁ ++ tmuxNameCore l₂ := by
  simp [tmuxNameCore, List.filter_append]

/-- C7 counterexample: the session-name sanitizer is not idempotent —
re-applying it prepends the fixed lead again — and its output is not
confined to `[A-Za-z0-9_]` (a `'/'` in the title passes through). -/
theorem tmuxName_spec_counterexample :
    toClaudeSquadTmuxName (toClaudeSquadTmuxName "a") ≠
      toClaudeSquadTmuxName "a" ∧
    '/' ∈ (toClaudeSquadTmuxName "a/b").data ∧
    isTmuxSafe '/' = false := by
  refine ⟨by decide, by decide, by decide⟩

/-- C7 as amended: the sanitizer's core (strip whitespace, replace
`'.'` by `'_'`) is idempotent, and re-applying the full sanitizer only
prepends the fixed `claudesquad_` lead once more; the output never
contains whitespace or `'.'`, and it consists only of `[A-Za-z0-9_]`
whenever every title character is alphanumeric, `'_'`, `'.'`, or
whitespace. -/
theorem tmuxName_spec (s : String)
    (h : ∀ c ∈ s.data, allowedTitleChar c = true) :
    tmuxNameCore (tmuxNameCore s.data) = tmuxNameCore s.data ∧
    (toClaudeSquadTmuxName (toClaudeSquadTmuxName s)).data =
      tmuxNameLead ++ (toClaudeSquadTmuxName s).data ∧
    (∀ c ∈ (toClaudeSquadTmuxName s).data, isGoSpace c = false ∧ c ≠ '.') ∧
    (∀ c ∈ (toClaudeSquadTmuxName s).data, isTmuxSafe c = true) := by
  refine ⟨tmuxNameCore_idem s.data, ?_, ?_, ?_⟩
  · show tmuxNameLead ++ tmuxNameCore (tmuxNameLead ++ tmuxNameCore s.data) = _
    rw [tmuxNameCore_append, tmuxNameCore_idem,
      (show tmuxNameCore tmuxNameLead = tmuxNameLead by decide)]
    rfl
  · intro c hc
    have hc' : c ∈ tmuxNameLead ++ tmuxNameCore s.data := hc
    rcases List.mem_append.1 hc' with hlead | hcore
    · fin_cases hlead <;> decide
    · exact tmuxNameCore_chars s.data c hcore
  · intro c hc
    have hc' : c ∈ tmuxNameLead ++ tmuxNameCore s.data := hc
    rcases List.mem_append.1 hc' with hlead | hcore
    · fin_cases hlead <;> decide
    · unfold tmuxNameCore at hcore
      rw [List.mem_map] at hcore
      obtain ⟨d, hd, rfl⟩ := hcore
      rw [List.mem_filter] at hd
      have hall := h d hd.1
      have hns := hd.2
      by_cases hdot : d = '.'
      · rw [if_pos hdot]; decide
      · rw [if_neg hdot]
        unfold allowedTitleChar at hall
        rw [Bool.or_eq_true, Bool.or_eq_true] at hall
        rcases hall with (h3 | h4) | h2
        · exact h3
        · exact absurd h4 (by simpa using hdot)
        · rw [h2] at hns
          cases hns

/-- Witness for C7's amended claim at the title `"Fix DB.1"`. -/
theorem tmuxName_spec_witness :
    tmuxNameCore (tmuxNameCore "Fix DB.1".data) =
      tmuxNameCore "Fix DB.1".data ∧
    (toClaudeSquadTmuxName (toClaudeSquadTmuxName "Fix DB.1")).data =
      tmuxNameLead ++ (toClaudeSquadTmuxName "Fix DB.1").data ∧
    (∀ c ∈ (toClaudeSquadTmuxName "Fix DB.1").data,
      isGoSpace c = false ∧ c ≠ '.') ∧
    (∀ c ∈ (toClaudeSquadTmuxName "Fix DB.1").data, isTmuxSafe c = true) :=
  tmuxName_spec "Fix DB.1" (by decide)

/-! ## C6: sanitizeIdentifier output shape (claim corrected) -/

theorem noDD_cons_iff (a : Char) (m : List Char) :
    noDoubleDash (a :: m) = true ↔
      noDoubleDash m = true ∧ ¬(a = '-' ∧ m.head? = some '-') := by
  cases m with
  | nil => simp [noDoubleDash]
  | cons b u =>
    show (!(a == '-' && b == '-') && noDoubleDash (b :: u)) = true ↔ _
    rw [Bool.and_eq_true, Bool.not_eq_true', Bool.and_eq_false_iff]
    simp only [beq_eq_false_iff_ne, ne_eq, List.head?_cons, Option.some.injEq,
      beq_iff_eq]
    constructor
    · rintro ⟨h1, h2⟩
      exact ⟨h2, fun ⟨ha, hb⟩ => by rcases h1 with h | h <;> exact h ‹_›⟩
    · rintro ⟨h1, h2⟩
      refine ⟨?_, h1⟩
      by_cases ha : a = '-'
      · exact Or.inr (fun hb => h2 ⟨ha, hb⟩)
      · exact Or.inl ha

theorem noDD_tail (a : Char) (t : List Char)
    (h : noDoubleDash (a :: t) = true) : noDoubleDash t = true :=
  ((noDD_cons_iff a t).1 h).1

theorem collapseDashAux_true_head (t : List Char) :
    (collapseDashAux true t).head? ≠ some '-' := by
  induction t with
  | nil => simp [collapseDashAux]
  | cons a u ih =>
    by_cases ha : a = '-'
    · rw [show collapseDashAux true (a :: u) = collapseDashAux true u by
        simp [collapseDashAux, ha]]
      exact ih
    · rw [show collapseDashAux true (a :: u) = a :: collapseDashAux false u by
        simp [collapseDashAux, ha]]
      simpa using ha

theorem noDD_collapseDashAux (l : List Char) :
    noDoubleDash (collapseDashAux false l) = true ∧
    noDoubleDash (collapseDashAux true l) = true := by
  induction l with
  | nil => exact ⟨rfl, rfl⟩
  | cons a t ih =>
    by_cases ha : a = '-'
    · constructor
      · rw [show collapseDashAux false (a :: t) = '-' :: collapseDashAux true t by
          simp [collapseDashAux, ha]]
        rw [noDD_cons_iff]
        exact ⟨ih.2, fun ⟨_, hh⟩ => collapseDashAux_true_head t hh⟩
      · rw [show collapseDashAux true (a :: t) = collapseDashAux true t by
          simp [collapseDashAux, ha]]
        exact ih.2
    · have hf : collapseDashAux false (a :: t) = a :: collapseDashAux false t := by
        simp [collapseDashAux, ha]
      have ht : collapseDashAux true (a :: t) = a :: collapseDashAux false t := by
        simp [collapseDashAux, ha]
      constructor
      · rw [hf, noDD_cons_iff]
        exact ⟨ih.1, fun ⟨h1, _⟩ => ha h1⟩
      · rw [ht, noDD_cons_iff]
        exact ⟨ih.1, fun ⟨h1, _⟩ => ha h1⟩

theorem mem_collapseDashAux (b : Bool) (l : List Char) (c : Char)
    (h : c ∈ collapseDashAux b l) : c ∈ l ∨ c = '-' := by
  induction l generalizing b with
  | nil => simp [collapseDashAux] at h
  | cons a t ih =>
    by_cases ha : a = '-'
    · cases b
      · rw [show collapseDashAux false (a :: t) = '-' :: collapseDashAux true t by
          simp [collapseDashAux, ha]] at h
        rcases List.mem_cons.1 h with rfl | h2
        · exact Or.inr rfl
        · rcases ih true h2 with h3 | h3
          · exact Or.inl (List.mem_cons_of_mem a h3)
          · exact Or.inr h3
      · rw [show collapseDashAux true (a :: t) = collapseDashAux true t by
          simp [collapseDashAux, ha]] at h
        rcases ih true h with h3 | h3
        · exact Or.inl (List.mem_cons_of_mem a h3)
        · exact Or.inr h3
    · rw [show collapseDashAux b (a :: t) = a :: collapseDashAux false t by
        cases b <;> simp [collapseDashAux, ha]] at h
      rcases List.mem_cons.1 h with rfl | h2
      · exact Or.inl (List.mem_cons_self _ _)
      · rcases ih false h2 with h3 | h3
        · exact Or.inl (List.mem_cons_of_mem a h3)
        · exact Or.inr h3

theorem mem_dropWhile_sub {p : Char → Bool} (l : List Char) (c : Char)
    (h : c ∈ l.dropWhile p) : c ∈ l := by
  induction l with
  | nil => simp at h
  | cons a t ih =>
    rw [List.dropWhile_cons] at h
    by_cases hp : p a = true
    · rw [if_pos hp] at h
      exact List.mem_cons_of_mem a (ih h)
    · rw [if_neg hp] at h
      exact h

theorem dropWhile_head_not {p : Char → Bool} (l : List Char) (c : Char)
    (h : (l.dropWhile p).head? = some c) : p c = false := by
  induction l with
  | nil => simp at h
  | cons a t ih =>
    rw [List.dropWhile_cons] at h
    by_cases hp : p a = true
    · rw [if_pos hp] at h
      exact ih h
    · rw [if_neg hp] at h
      rw [List.head?_cons, Option.some.injEq] at h
      rw [← h]
      exact Bool.not_eq_true _ ▸ hp

theorem noDD_dropWhile {p : Char → Bool} (l : List Char)
    (h : noDoubleDash l = true) : noDoubleDash (l.dropWhile p) = true := by
  induction l with
  | nil => exact h
  | cons a t ih =>
    rw [List.dropWhile_cons]
    by_cases hp : p a = true
    · rw [if_pos hp]
      exact ih (noDD_tail a t h)
    · rw [if_neg hp]
      exact h

theorem mem_dropEndDash (l : List Char) (c : Char)
    (h : c ∈ dropEndDash l) : c ∈ l := by
  induction l with
  | nil => simp [dropEndDash] at h
  | cons a t ih =>
    unfold dropEndDash at h
    by_cases hc : dropEndDash t = [] ∧ a = '-'
    · rw [if_pos hc] at h
      cases h
    · rw [if_neg hc] at h
      rcases List.mem_cons.1 h with rfl | h2
      · exact List.mem_cons_self _ _
      · exact List.mem_cons_of_mem a (ih h2)

theorem dropEndDash_head (l : List Char) (c : Char) (r : List Char)
    (h : dropEndDash l = c :: r) : l.head? = some c := by
  cases l with
  | nil => simp [dropEndDash] at h
  | cons a t =>
    unfold dropEndDash at h
    by_cases hc : dropEndDash t = [] ∧ a = '-'
    · rw [if_pos hc] at h
      cases h
    · rw [if_neg hc] at h
      rw [List.head?_cons]
      exact congrArg some (List.cons.inj h).1

theorem dropEndDash_getLast (l : List Char) :
    (dropEndDash l).getLast? ≠ some '-' := by
  induction l with
  | nil => simp [dropEndDash]
  | cons a t ih =>
    unfold dropEndDash
    by_cases hc : dropEndDash t = [] ∧ a = '-'
    · rw [if_pos hc]
      simp
    · rw [if_neg hc]
      rcases hde : dropEndDash t with _ | ⟨b, u⟩
      · have ha : ¬ a = '-' := fun ha => hc ⟨hde, ha⟩
        simpa using ha
      · rw [List.getLast?_cons_cons]
        rw [hde] at ih
        exact ih

theorem noDD_dropEndDash (l : List Char) (h : noDoubleDash l = true) :
    noDoubleDash (dropEndDash l) = true := by
  induction l with
  | nil => exact h
  | cons a t ih =>
    unfold dropEndDash
    by_cases hc : dropEndDash t = [] ∧ a = '-'
    · rw [if_pos hc]
      rfl
    · rw [if_neg hc]
      rw [noDD_cons_iff]
      refine ⟨ih (noDD_tail a t h), ?_⟩
      rintro ⟨ha, hh⟩
      rcases hde : dropEndDash t with _ | ⟨b, u⟩
      · rw [hde] at hh
        cases hh
      · rw [hde] at hh
        rw [List.head?_cons, Option.some.injEq] at hh
        have hhead : t.head? = some b := dropEndDash_head t b u hde
        exact ((noDD_cons_iff a t).1 h).2 ⟨ha, by rw [hhead, hh]⟩

theorem identShape_trim (m : List Char)
    (hsafe : ∀ c ∈ m, isSafeIdentChar c = true)
    (hdd : noDoubleDash m = true) : identShape (trimDash m) = true := by
  unfold identShape trimDash
  rw [Bool.and_eq_true, Bool.and_eq_true, Bool.and_eq_true]
  refine ⟨⟨⟨?_, ?_⟩, ?_⟩, ?_⟩
  · rw [List.all_eq_true]
    intro c hc
    exact hsafe c (mem_dropWhile_sub m c (mem_dropEndDash _ c hc))
  · rw [Bool.not_eq_true']
    rcases hh : dropEndDash (m.dropWhile fun c => c = '-') with _ | ⟨c0, r0⟩
    · rfl
    · have h1 := dropEndDash_head _ c0 r0 hh
      have h2 := dropWhile_head_not m c0 h1
      simp only [List.head?_cons, Option.some.injEq]
      simpa using h2
  · rw [Bool.not_eq_true']
    have h3 := dropEndDash_getLast (m.dropWhile fun c => c = '-')
    rcases hh : (dropEndDash (m.dropWhile fun c => c = '-')).getLast? with _ | x
    · rfl
    · rw [hh] at h3
      simpa using fun hx => h3 (by rw [hx])
  · exact noDD_dropEndDash _ (noDD_dropWhile m hdd)

/-- C6 counterexample: `sanitizeIdentifier "a" = "a"`, which is
non-empty and does not match `^[a-z0-9][a-z0-9_-]*[a-z0-9]$` (the
pattern requires at least two characters). -/
theorem sanitizeIdentifier_spec_counterexample :
    sanitizeIdentifier "a" = "a" ∧ sanitizeIdentifier "a" ≠ "" ∧
    claimedBranchPattern (sanitizeIdentifier "a").data = false := by
  refine ⟨rfl, by decide, rfl⟩

/-- C6 as amended: every `sanitizeIdentifier` output is empty or
matches `^[a-z0-9_]([a-z0-9_-]*[a-z0-9_])?$` — only `[a-z0-9_-]`
characters, no hyphen at either end, and no run of two hyphens
(single-character outputs and outputs beginning or ending in `'_'`,
which the claimed pattern rejects, do occur); hyphen runs collapse to
one and leading/trailing hyphens are trimmed, and the three examples
hold: `"  Fix  DB   " ↦ "fix-db"`, `"---foo--bar---" ↦ "foo-bar"`,
`"!!!" ↦ ""`. -/
theorem sanitizeIdentifier_spec (s : String) :
    identShape (sanitizeIdentifier s).data = true ∧
    sanitizeIdentifier "  Fix  DB   " = "fix-db" ∧
    sanitizeIdentifier "---foo--bar---" = "foo-bar" ∧
    sanitizeIdentifier "!!!" = "" := by
  refine ⟨?_, by decide, by decide, by decide⟩
  show identShape (sanitizeIdentCore s.data) = true
  unfold sanitizeIdentCore collapseDash
  apply identShape_trim
  · intro c hc
    rcases mem_collapseDashAux false _ c hc with h1 | h1
    · exact (List.mem_filter.1 h1).2
    · rw [h1]
      rfl
  · exact (noDD_collapseDashAux _).1

end ClaudeSquad
